import Mathlib

/-!
# golang-logger: a shallow embedding of `logger.go`

The package keeps ten buffered channels of strings in a map keyed by name
(`"InfoSys"`, `"InfoLocal"`, ...).  Every public logging call renders one
string and hands it to the dispatcher returned by `getPoster`; two goroutines
(`syslogConsumeProc`, `localConsumeProc`) drain the channels into the syslog
writers and the local loggers.

Concurrency is modelled by interleaving: a run is a list of atomic events
(a logging call, or one iteration of one consumer loop).  A `select` with a
1 ms timeout is modelled by its outcome at the instant it is evaluated: the
send case fires when the channel has room at that instant and the timeout case
fires otherwise, so "full" means full for the whole wait.  The standard library
(`fmt.Sprint`, the flags and the header of package `log`, the constants of
package `log/syslog`) is modelled from its documented behaviour.
-/

namespace Logger

/-! ## Channels -/

/-- A buffered Go channel of strings (`make(chan string, cap)`).  `buf` is the
content of the buffer, oldest first.  `sent` and `recvd` are history variables:
every message ever accepted into the channel and every message ever received
from it, in order.  They are written by `trySend` and `tryRecv` only and are
never read by the program. -/
structure Chan where
  cap : Nat
  buf : List String
  sent : List String
  recvd : List String
  deriving DecidableEq, Repr

/-- The expression `make(chan string, n)`. -/
def makeChan (n : Nat) : Chan := { cap := n, buf := [], sent := [], recvd := [] }

/-- The channel has free capacity. -/
def Chan.hasRoom (c : Chan) : Prop := c.buf.length < c.cap

instance (c : Chan) : Decidable c.hasRoom := by
  unfold Chan.hasRoom; infer_instance

/-- The channel is full. -/
def Chan.full (c : Chan) : Prop := ¬ c.hasRoom

instance (c : Chan) : Decidable c.full := by
  unfold Chan.full; infer_instance

/-- The channel with `msg` appended at the tail of its buffer. -/
def Chan.push (c : Chan) (msg : String) : Chan :=
  { c with buf := c.buf ++ [msg], sent := c.sent ++ [msg] }

/-- The send `c <- msg` attempted without blocking: accepted at the tail of the
buffer when there is room, refused (`none`) when the buffer is full. -/
def Chan.trySend (c : Chan) (msg : String) : Option Chan :=
  if c.buf.length < c.cap then some (c.push msg) else none

/-- The receive `<-c` attempted without blocking: the oldest message and the
channel without it, or `none` when the buffer is empty. -/
def Chan.tryRecv (c : Chan) : Option (String × Chan) :=
  match c.buf with
  | [] => none
  | m :: rest => some (m, { c with buf := rest, recvd := c.recvd ++ [m] })

/-- The statement
`select { case ch <- msg: return; case <-time.After(time.Millisecond * 1): }`.
A channel variable is `none` when it is the nil channel (a send on it is never
ready).  The result is the channel after the send when the send case fires and
`none` when the timeout case fires. -/
def selectSend (ch : Option Chan) (msg : String) : Option Chan :=
  match ch with
  | none => none
  | some c => c.trySend msg

/-! ## The dispatcher -/

/-- The type `postFunc`.  Channels are references in Go; the embedding returns
the state of the two channels after the call. -/
abbrev postFunc := String → Option Chan → Option Chan → Option Chan × Option Chan

/-- The function `getPoster` (logger.go, lines 39-60). -/
def getPoster (debug : Bool) : postFunc := fun msg sysBuf localBuf =>
  -- if !debug { select { case sysBuf <- msg: return; case <-time.After(1ms): } }
  let sysSent : Option Chan := if !debug then selectSend sysBuf msg else none
  match sysSent with
  | some s => (some s, localBuf)
  | none =>
    -- sysBuf is full or debug, so post to localBuf
    match selectSend localBuf msg with
    | some l => (sysBuf, some l)
    | none => (sysBuf, localBuf)  -- anyway if localbuf is full, drop the msg

/-! ## The formatter (`fmt.Sprint`) -/

/-- An argument of a variadic logging call (a Go `interface{}` value), as
`fmt.Sprint` sees it: whether its kind is string, and its default rendering.
`str s` is an operand of string kind rendered as `s`; `int`, `bool` and `nil`
are integers, booleans and the nil interface; `other text` is any other operand
whose kind is not string (an error, a float, a slice, a struct, a pointer, a
`Stringer`, ...) together with its default rendering `text`. -/
inductive Value where
  | str (s : String)
  | int (i : Int)
  | bool (b : Bool)
  | nil
  | other (text : String)
  deriving DecidableEq, Repr

/-- The operand is of string kind (`arg != nil && Kind() == reflect.String`). -/
def Value.isString : Value → Bool
  | .str _ => true
  | _ => false

/-- The default (`%v`) rendering of one operand. -/
def Value.render : Value → String
  | .str s => s
  | .int i => toString i
  | .bool b => if b then "true" else "false"
  | .nil => "<nil>"
  | .other text => text

/-- The loop of `fmt`'s `doPrint`, the body of `fmt.Sprint` in the Go standard
library: operands are written in order in their default format, and a space is
written between two operands when neither is a string. -/
def doPrint (buf : String) (argNum : Nat) (prevString : Bool) : List Value → String
  | [] => buf
  | arg :: rest =>
    let isString := arg.isString
    let buf := if 0 < argNum && !isString && !prevString then buf ++ " " else buf
    doPrint (buf ++ arg.render) (argNum + 1) isString rest

/-- The library function `fmt.Sprint`. -/
def Sprint (a : List Value) : String := doPrint "" 0 false a

/-- The renderings of the operands concatenated with no separators. -/
def concatRendered : List Value → String
  | [] => ""
  | a :: rest => a.render ++ concatRendered rest

/-- The renderings of the operands in order, with one space between two
neighbouring operands when neither is a string and nothing between them
otherwise. -/
def spacedRendered : List Value → String
  | [] => ""
  | [a] => a.render
  | a :: b :: rest =>
    a.render ++ (if !a.isString && !b.isString then " " else "") ++ spacedRendered (b :: rest)

/-- No two neighbouring operands are both non-strings. -/
def noAdjacentNonStrings : List Value → Bool
  | a :: b :: rest => (a.isString || b.isString) && noAdjacentNonStrings (b :: rest)
  | _ => true

/-! ## Constants (logger.go, lines 18-26) and the standard library's flags -/

/-- The flag `log.Ldate`. -/
def Ldate : Nat := 1
/-- The flag `log.Ltime`. -/
def Ltime : Nat := 2
/-- The flag `log.Lmicroseconds`. -/
def Lmicroseconds : Nat := 4
/-- The flag `log.Llongfile`. -/
def Llongfile : Nat := 8
/-- The flag `log.Lshortfile`. -/
def Lshortfile : Nat := 16

/-- The constant `_LOG_DEBUG_FLAG = log.Ldate | log.Lmicroseconds | log.Lshortfile`. -/
def _LOG_DEBUG_FLAG : Nat := Ldate ||| Lmicroseconds ||| Lshortfile

def _INFO_HEADER : String := "[INFO]"
def _WARNING_HEADER : String := "[WARNING]"
def _ERROR_HEADER : String := "[ERROR]"
def _DEBUG_HEADER : String := "[DEBUG]"
def _FATAL_HEADER : String := "[FATAL]"

/-- The syslog severity `syslog.LOG_ERR`. -/
def LOG_ERR : Nat := 3
/-- The syslog severity `syslog.LOG_INFO`. -/
def LOG_INFO : Nat := 6
/-- The syslog facility `syslog.LOG_LOCAL3` (`19 << 3`). -/
def LOG_LOCAL3 : Nat := 19 <<< 3

/-! ## Sinks -/

/-- Where a `*log.Logger` writes. -/
inductive Dest where
  | stdout
  | stderr
  | file (name : String)
  deriving DecidableEq, Repr

/-- A `*log.Logger` as built by `log.New(out, pre, flag)`. -/
structure LogLogger where
  out : Dest
  pre : String
  flag : Nat
  deriving DecidableEq, Repr

/-- A `*syslog.Writer` as built by `syslog.New(priority, tag)`. -/
structure SyslogWriter where
  priority : Nat
  tag : String
  deriving DecidableEq, Repr

/-- The level methods of `*syslog.Writer` that the package calls. -/
inductive SyslogLevel where
  | debug
  | info
  | warning
  | err
  | crit
  deriving DecidableEq, Repr

/-- One call `w.Debug(msg)`, `w.Info(msg)`, `w.Warning(msg)`, `w.Err(msg)` or
`w.Crit(msg)` made by the syslog consumer. -/
structure SyslogCall where
  writer : SyslogWriter
  level : SyslogLevel
  msg : String
  deriving DecidableEq, Repr

/-- One call `l.Println(msg)` made by the local consumer. -/
structure LocalCall where
  logger : LogLogger
  msg : String
  deriving DecidableEq, Repr

/-- What the runtime supplies to `log.Logger.Output`: the wall-clock time and the
source position of the statement that called `Println`. -/
structure Stamp where
  year : Nat
  month : Nat
  day : Nat
  hour : Nat
  min : Nat
  sec : Nat
  micro : Nat
  file : String
  line : Nat
  deriving DecidableEq, Repr

/-- The helper `itoa` of package `log`: decimal digits, zero-padded to `wid`. -/
def itoa (i : Nat) (wid : Nat) : String :=
  let ds := Nat.toDigits 10 i
  String.mk (List.replicate (wid - ds.length) '0' ++ ds)

/-- The part of a path after its last slash, on characters. -/
def lastSegment (acc : List Char) : List Char → List Char
  | [] => acc
  | c :: rest => if c = '/' then lastSegment [] rest else lastSegment (acc ++ [c]) rest

/-- The final element of a path, as `Lshortfile` selects it. -/
def shortFile (file : String) : String := String.mk (lastSegment [] file.data)

/-- The function `formatHeader` of package `log`: the text a logger writes in
front of the message, as selected by its flags. -/
def formatHeader (l : LogLogger) (t : Stamp) : String :=
  let date :=
    if l.flag &&& Ldate ≠ 0 then
      itoa t.year 4 ++ "/" ++ itoa t.month 2 ++ "/" ++ itoa t.day 2 ++ " "
    else ""
  let clock :=
    if l.flag &&& (Ltime ||| Lmicroseconds) ≠ 0 then
      itoa t.hour 2 ++ ":" ++ itoa t.min 2 ++ ":" ++ itoa t.sec 2 ++
        (if l.flag &&& Lmicroseconds ≠ 0 then "." ++ itoa t.micro 6 else "") ++ " "
    else ""
  let pos :=
    if l.flag &&& (Lshortfile ||| Llongfile) ≠ 0 then
      (if l.flag &&& Lshortfile ≠ 0 then shortFile t.file else t.file) ++
        ":" ++ itoa t.line 0 ++ ": "
    else ""
  l.pre ++ date ++ clock ++ pos

/-- The line that `l.Println(msg)` writes to `l.out`. -/
def LogLogger.line (l : LogLogger) (t : Stamp) (msg : String) : String :=
  formatHeader l t ++ msg ++ "\n"

/-! ## Package state -/

/-- The five severities of the public API. -/
inductive Severity where
  | Debug
  | Info
  | Warning
  | Error
  | Fatal
  deriving DecidableEq, Repr

/-- The package-level variables of logger.go after line 155 of `Init`, together
with the observable activity of the two goroutines.  `post` holds the closure
returned by `getPoster`, represented by the value of `debug` that it captured.
`syslogRunning` and `localRunning` tell whether the goroutine is executing its
loop; `syslogCalls` and `localCalls` are the calls the goroutines have made to
the sink drivers, in order. -/
structure State where
  isDebug : Bool
  logId : String
  accesslog : Option LogLogger
  errorlog : Option LogLogger
  accessSyslog : Option SyslogWriter
  errorSyslog : Option SyslogWriter
  post : Bool
  bufferSize : Nat
  bufMap : List (String × Chan)
  syslogRunning : Bool
  localRunning : Bool
  syslogCalls : List SyslogCall
  localCalls : List LocalCall
  deriving DecidableEq, Repr

/-- The map read `bufMap[k]`; a missing key reads as the nil channel. -/
def bufGet : List (String × Chan) → String → Option Chan
  | [], _ => none
  | (k', c) :: rest, k => if k' = k then some c else bufGet rest k

/-- The map assignment `bufMap[k] = c`. -/
def bufInsert : List (String × Chan) → String → Chan → List (String × Chan)
  | [], k, c => [(k, c)]
  | (k', c') :: rest, k, c =>
    if k' = k then (k, c) :: rest else (k', c') :: bufInsert rest k c

/-- Writes back the state of the channel that `bufMap[k]` refers to after an
operation on it; the nil channel has no state. -/
def bufStore (m : List (String × Chan)) (k : String) : Option Chan → List (String × Chan)
  | none => m
  | some c => m.map (fun e => if e.1 = k then (e.1, c) else e)

/-- The names and capacities of the channels in the map. -/
def queueSet (m : List (String × Chan)) : List (String × Nat) :=
  m.map (fun e => (e.1, e.2.cap))

/-- The outcome of the operating-system calls made during `Init`: whether
`syslog.New(priority, tag)` and `os.OpenFile(name, ...)` succeed. -/
structure Env where
  syslogNew : Nat → String → Bool
  openFile : String → Bool

/-- The function `initSyslog` (logger.go, lines 62-79). -/
def initSyslog (env : Env) (st : State) : Except String State :=
  if !env.syslogNew (LOG_INFO ||| LOG_LOCAL3) (st.logId ++ "_info") then
    .error "syslog.New"
  else
  let st := { st with accessSyslog := some ⟨LOG_INFO ||| LOG_LOCAL3, st.logId ++ "_info"⟩ }
  if !env.syslogNew (LOG_ERR ||| LOG_LOCAL3) (st.logId ++ "_err") then
    .error "syslog.New"
  else
  let st := { st with errorSyslog := some ⟨LOG_ERR ||| LOG_LOCAL3, st.logId ++ "_err"⟩ }
  let st := { st with bufMap := bufInsert st.bufMap "InfoSys" (makeChan st.bufferSize) }
  let st := { st with bufMap := bufInsert st.bufMap "DebugSys" (makeChan st.bufferSize) }
  let st := { st with bufMap := bufInsert st.bufMap "WarningSys" (makeChan st.bufferSize) }
  let st := { st with bufMap := bufInsert st.bufMap "ErrorSys" (makeChan st.bufferSize) }
  let st := { st with bufMap := bufInsert st.bufMap "FatalSys" (makeChan st.bufferSize) }
  -- go syslogConsumeProc()
  .ok { st with syslogRunning := true }

/-- The function `initLocalLog` (logger.go, lines 81-107). -/
def initLocalLog (env : Env) (st : State) : Except String State :=
  let opened : Except String State :=
    if st.isDebug then
      let st := { st with errorlog := some ⟨.stderr, "", _LOG_DEBUG_FLAG⟩ }
      .ok { st with accesslog := some ⟨.stdout, "", _LOG_DEBUG_FLAG⟩ }
    else
      if !env.openFile (st.logId ++ "_info") then .error "os.OpenFile" else
      let st := { st with accesslog := some ⟨.file (st.logId ++ "_info"), "", _LOG_DEBUG_FLAG⟩ }
      if !env.openFile (st.logId ++ "_err") then .error "os.OpenFile" else
      .ok { st with errorlog := some ⟨.file (st.logId ++ "_err"), "", _LOG_DEBUG_FLAG⟩ }
  match opened with
  | .error e => .error e
  | .ok st =>
    let st := { st with bufMap := bufInsert st.bufMap "FatalLocal" (makeChan st.bufferSize) }
    let st := { st with bufMap := bufInsert st.bufMap "InfoLocal" (makeChan st.bufferSize) }
    let st := { st with bufMap := bufInsert st.bufMap "DebugLocal" (makeChan st.bufferSize) }
    let st := { st with bufMap := bufInsert st.bufMap "WarningLocal" (makeChan st.bufferSize) }
    let st := { st with bufMap := bufInsert st.bufMap "ErrorLocal" (makeChan st.bufferSize) }
    -- go localConsumeProc()
    .ok { st with localRunning := true }

/-- The function `Init` (logger.go, lines 151-164); `.error` is the `panic(err)`.
`bufferSize` is the package variable initialised to 10000 and assigned nowhere. -/
def Init (env : Env) (proj : String) (debug : Bool) : Except String State :=
  let st : State :=
    { isDebug := debug, logId := proj,
      accesslog := none, errorlog := none, accessSyslog := none, errorSyslog := none,
      post := debug,  -- post = getPoster(isDebug)
      bufferSize := 10000, bufMap := [],
      syslogRunning := false, localRunning := false, syslogCalls := [], localCalls := [] }
  match (if !st.isDebug then initSyslog env st else .ok st) with
  | .error e => .error e
  | .ok st => initLocalLog env st

/-! ## The consumer loops -/

/-- One ready case `case msg := <-bufMap[key]: w.Level(msg)` of the `select` in
`syslogConsumeProc`.  The case is not ready (the state is unchanged) when the
channel is nil or empty.  `panics` tells whether the driver call panics; a call
through a nil writer panics too.  A panic unwinds the `for` loop and runs the
deferred `recover()`, after which the function returns: the goroutine ends. -/
def syslogCase (st : State) (key : String) (w : Option SyslogWriter)
    (level : SyslogLevel) (panics : Bool) : State :=
  match bufGet st.bufMap key with
  | none => st
  | some c =>
    match c.tryRecv with
    | none => st
    | some (msg, c') =>
      let st := { st with bufMap := bufStore st.bufMap key (some c') }
      match w with
      | none => { st with syslogRunning := false }
      | some w =>
        let st := { st with syslogCalls := st.syslogCalls ++ [⟨w, level, msg⟩] }
        if panics then { st with syslogRunning := false } else st

/-- One iteration of the loop of `syslogConsumeProc` (logger.go, lines 109-128)
in which the `select` picks the case of `choice`.  Nothing happens when the
goroutine is not running. -/
def syslogConsumeProc (st : State) (choice : Severity) (panics : Bool) : State :=
  if !st.syslogRunning then st else
  match choice with
  | .Debug => syslogCase st "DebugSys" st.accessSyslog .debug panics
  | .Info => syslogCase st "InfoSys" st.accessSyslog .info panics
  | .Warning => syslogCase st "WarningSys" st.errorSyslog .warning panics
  | .Error => syslogCase st "ErrorSys" st.errorSyslog .err panics
  | .Fatal => syslogCase st "FatalSys" st.errorSyslog .crit panics

/-- One ready case `case msg := <-bufMap[key]: l.Println(msg)` of the `select`
in `localConsumeProc`; see `syslogCase`. -/
def localCase (st : State) (key : String) (l : Option LogLogger) (panics : Bool) : State :=
  match bufGet st.bufMap key with
  | none => st
  | some c =>
    match c.tryRecv with
    | none => st
    | some (msg, c') =>
      let st := { st with bufMap := bufStore st.bufMap key (some c') }
      match l with
      | none => { st with localRunning := false }
      | some l =>
        let st := { st with localCalls := st.localCalls ++ [⟨l, msg⟩] }
        if panics then { st with localRunning := false } else st

/-- One iteration of the loop of `localConsumeProc` (logger.go, lines 130-149)
in which the `select` picks the case of `choice`. -/
def localConsumeProc (st : State) (choice : Severity) (panics : Bool) : State :=
  if !st.localRunning then st else
  match choice with
  | .Debug => localCase st "DebugLocal" st.accesslog panics
  | .Info => localCase st "InfoLocal" st.accesslog panics
  | .Warning => localCase st "WarningLocal" st.errorlog panics
  | .Error => localCase st "ErrorLocal" st.errorlog panics
  | .Fatal => localCase st "FatalLocal" st.errorlog panics

/-! ## The public API (logger.go, lines 169-207) -/

/-- The statement `post(msg, bufMap[sysKey], bufMap[localKey])`. -/
def State.callPost (st : State) (msg : String) (sysKey localKey : String) : State :=
  let r := getPoster st.post msg (bufGet st.bufMap sysKey) (bufGet st.bufMap localKey)
  { st with bufMap := bufStore (bufStore st.bufMap sysKey r.1) localKey r.2 }

def Info (st : State) (v : List Value) : State :=
  st.callPost (Sprint [.str _INFO_HEADER, .str (Sprint v)]) "InfoSys" "InfoLocal"

def Debug (st : State) (v : List Value) : State :=
  st.callPost (Sprint [.str _DEBUG_HEADER, .str (Sprint v)]) "DebugSys" "DebugLocal"

def Warning (st : State) (v : List Value) : State :=
  st.callPost (Sprint [.str _WARNING_HEADER, .str (Sprint v)]) "WarningSys" "WarningLocal"

def Error (st : State) (v : List Value) : State :=
  st.callPost (Sprint [.str _ERROR_HEADER, .str (Sprint v)]) "ErrorSys" "ErrorLocal"

def Fatal (st : State) (v : List Value) : State :=
  st.callPost (Sprint [.str _FATAL_HEADER, .str (Sprint v)]) "FatalSys" "FatalLocal"

/-- The function `Infof`; the library function `fmt.Sprintf` is a parameter. -/
def Infof (Sprintf : String → List Value → String) (st : State) (format : String)
    (v : List Value) : State :=
  st.callPost (Sprint [.str _INFO_HEADER, .str (Sprintf format v)]) "InfoSys" "InfoLocal"

/-- The function `Debugf`. -/
def Debugf (Sprintf : String → List Value → String) (st : State) (format : String)
    (v : List Value) : State :=
  st.callPost (Sprint [.str _DEBUG_HEADER, .str (Sprintf format v)]) "DebugSys" "DebugLocal"

/-- The function `Warningf`. -/
def Warningf (Sprintf : String → List Value → String) (st : State) (format : String)
    (v : List Value) : State :=
  st.callPost (Sprint [.str _WARNING_HEADER, .str (Sprintf format v)])
    "WarningSys" "WarningLocal"

/-- The function `Errorf`. -/
def Errorf (Sprintf : String → List Value → String) (st : State) (format : String)
    (v : List Value) : State :=
  st.callPost (Sprint [.str _ERROR_HEADER, .str (Sprintf format v)]) "ErrorSys" "ErrorLocal"

/-- The function `Fatalf`. -/
def Fatalf (Sprintf : String → List Value → String) (st : State) (format : String)
    (v : List Value) : State :=
  st.callPost (Sprint [.str _FATAL_HEADER, .str (Sprintf format v)]) "FatalSys" "FatalLocal"

/-- The header constant of a severity. -/
def header : Severity → String
  | .Debug => _DEBUG_HEADER
  | .Info => _INFO_HEADER
  | .Warning => _WARNING_HEADER
  | .Error => _ERROR_HEADER
  | .Fatal => _FATAL_HEADER

/-- The name of the syslog queue of a severity. -/
def sysKey : Severity → String
  | .Debug => "DebugSys"
  | .Info => "InfoSys"
  | .Warning => "WarningSys"
  | .Error => "ErrorSys"
  | .Fatal => "FatalSys"

/-- The name of the local queue of a severity. -/
def localKey : Severity → String
  | .Debug => "DebugLocal"
  | .Info => "InfoLocal"
  | .Warning => "WarningLocal"
  | .Error => "ErrorLocal"
  | .Fatal => "FatalLocal"

/-- The common body of the ten public functions: the function of severity `s`
called with arguments whose rendering (`fmt.Sprint(v...)` for `Info`, `Debug`,
..., `fmt.Sprintf(format, v...)` for `Infof`, `Debugf`, ...) is `body`. -/
def logCall (st : State) (s : Severity) (body : String) : State :=
  st.callPost (Sprint [.str (header s), .str body]) (sysKey s) (localKey s)

/-- The non-format public function of a severity. -/
def logFn : Severity → State → List Value → State
  | .Debug => Debug
  | .Info => Info
  | .Warning => Warning
  | .Error => Error
  | .Fatal => Fatal

/-! ## Runs -/

/-- An atomic step of the running program: a public logging call of severity `s`
with rendered arguments `body`, or one iteration of a consumer loop whose
`select` picks the case `choice` and whose driver call panics or not. -/
inductive Event where
  | log (s : Severity) (body : String)
  | syslogStep (choice : Severity) (panics : Bool)
  | localStep (choice : Severity) (panics : Bool)
  deriving DecidableEq, Repr

/-- The effect of one event. -/
def step (st : State) : Event → State
  | .log s body => logCall st s body
  | .syslogStep choice panics => syslogConsumeProc st choice panics
  | .localStep choice panics => localConsumeProc st choice panics

/-- The effect of a sequence of events (an interleaving). -/
def run (st : State) (evs : List Event) : State := evs.foldl step st

/-- An environment in which every system call of `Init` succeeds. -/
def okEnv : Env := { syslogNew := fun _ _ => true, openFile := fun _ => true }

/-! ## Lemmas on channels and the channel map -/

theorem logFn_eq_logCall (s : Severity) (st : State) (v : List Value) :
    logFn s st v = logCall st s (Sprint v) := by
  cases s <;> rfl

theorem logf_eq_logCall (Sprintf : String → List Value → String) (st : State)
    (format : String) (v : List Value) :
    Debugf Sprintf st format v = logCall st .Debug (Sprintf format v) ∧
    Infof Sprintf st format v = logCall st .Info (Sprintf format v) ∧
    Warningf Sprintf st format v = logCall st .Warning (Sprintf format v) ∧
    Errorf Sprintf st format v = logCall st .Error (Sprintf format v) ∧
    Fatalf Sprintf st format v = logCall st .Fatal (Sprintf format v) :=
  ⟨rfl, rfl, rfl, rfl, rfl⟩

theorem push_ne (c : Chan) (msg : String) : c.push msg ≠ c := by
  intro h
  have h2 : (c.push msg).buf.length = c.buf.length := by rw [h]
  simp [Chan.push] at h2

theorem trySend_of_room (c : Chan) (msg : String) (h : c.hasRoom) :
    c.trySend msg = some (c.push msg) := by
  unfold Chan.hasRoom at h
  simp [Chan.trySend, h]

theorem trySend_of_full (c : Chan) (msg : String) (h : c.full) :
    c.trySend msg = none := by
  unfold Chan.full Chan.hasRoom at h
  simp [Chan.trySend, h]

theorem bufGet_mem {m : List (String × Chan)} {k : String} {c : Chan}
    (h : bufGet m k = some c) : (k, c) ∈ m := by
  induction m with
  | nil => simp [bufGet] at h
  | cons e rest ih =>
    obtain ⟨k0, c0⟩ := e
    by_cases hk : k0 = k
    · simp [bufGet, hk] at h
      simp [hk, h]
    · simp [bufGet, hk] at h
      exact List.mem_cons_of_mem _ (ih h)

theorem bufStore_cons (k0 : String) (c0 : Chan) (rest : List (String × Chan))
    (k : String) (c : Chan) :
    bufStore ((k0, c0) :: rest) k (some c) =
      (k0, if k0 = k then c else c0) :: bufStore rest k (some c) := by
  by_cases h : k0 = k <;> simp [bufStore, h]

theorem bufGet_cons (k0 : String) (c0 : Chan) (rest : List (String × Chan)) (k : String) :
    bufGet ((k0, c0) :: rest) k = if k0 = k then some c0 else bufGet rest k := rfl

theorem bufGet_bufStore (m : List (String × Chan)) (k k' : String) (c : Chan) :
    bufGet (bufStore m k (some c)) k' =
      if k = k' then (bufGet m k').map (fun _ => c) else bufGet m k' := by
  induction m with
  | nil => simp [bufStore, bufGet]
  | cons e rest ih =>
    obtain ⟨k0, c0⟩ := e
    rw [bufStore_cons, bufGet_cons, bufGet_cons, ih]
    by_cases h0 : k0 = k <;> by_cases h1 : k = k' <;> by_cases h2 : k0 = k' <;>
      simp_all

theorem bufGet_bufStore_none (m : List (String × Chan)) (k k' : String) :
    bufGet (bufStore m k none) k' = bufGet m k' := rfl

theorem keys_bufStore (m : List (String × Chan)) (k : String) (oc : Option Chan) :
    (bufStore m k oc).map Prod.fst = m.map Prod.fst := by
  cases oc with
  | none => rfl
  | some c =>
    simp only [bufStore, List.map_map]
    apply List.map_congr_left
    intro e _
    by_cases h : e.1 = k <;> simp [h]

theorem forall_bufStore {P : Chan → Prop} {m : List (String × Chan)} (k : String)
    (oc : Option Chan) (hm : ∀ e ∈ m, P e.2) (hc : ∀ c, oc = some c → P c) :
    ∀ e ∈ bufStore m k oc, P e.2 := by
  cases oc with
  | none => exact hm
  | some c =>
    intro e he
    simp only [bufStore, List.mem_map] at he
    obtain ⟨e0, he0, rfl⟩ := he
    by_cases h : e0.1 = k
    · simp only [h, if_true]; exact hc c rfl
    · simp only [h, if_false]; exact hm e0 he0

theorem sysKey_ne_localKey (s t : Severity) : sysKey s ≠ localKey t := by
  cases s <;> cases t <;> decide

theorem bufGet_bufStore_same (m : List (String × Chan)) (k : String) (oc : Option Chan)
    (h : (bufGet m k).isSome = oc.isSome) : bufGet (bufStore m k oc) k = oc := by
  cases oc with
  | none =>
    simp only [bufStore]
    cases hg : bufGet m k with
    | none => rfl
    | some x => simp [hg] at h
  | some c =>
    rw [bufGet_bufStore, if_pos rfl]
    cases hg : bufGet m k with
    | none => simp [hg] at h
    | some x => rfl

theorem bufGet_bufStore_other (m : List (String × Chan)) (k k' : String) (oc : Option Chan)
    (h : k ≠ k') : bufGet (bufStore m k oc) k' = bufGet m k' := by
  cases oc with
  | none => rfl
  | some c => rw [bufGet_bufStore, if_neg h]

theorem selectSend_isSome_le (ch : Option Chan) (msg : String) (c : Chan)
    (h : selectSend ch msg = some c) : ∃ c0, ch = some c0 := by
  cases ch with
  | none => simp [selectSend] at h
  | some c0 => exact ⟨c0, rfl⟩

theorem getPoster_isSome (debug : Bool) (msg : String) (sys loc : Option Chan) :
    (getPoster debug msg sys loc).1.isSome = sys.isSome ∧
    (getPoster debug msg sys loc).2.isSome = loc.isSome := by
  unfold getPoster
  cases debug
  · cases h1 : selectSend sys msg with
    | some a =>
      obtain ⟨c0, rfl⟩ := selectSend_isSome_le _ _ _ h1
      simp [h1]
    | none =>
      cases h2 : selectSend loc msg with
      | some b =>
        obtain ⟨c0, rfl⟩ := selectSend_isSome_le _ _ _ h2
        simp [h1, h2]
      | none => simp [h1, h2]
  · cases h2 : selectSend loc msg with
    | some b =>
      obtain ⟨c0, rfl⟩ := selectSend_isSome_le _ _ _ h2
      simp [h2]
    | none => simp [h2]

theorem bufGet_callPost_sys (st : State) (msg ks kl : String) (h : ks ≠ kl) :
    bufGet (st.callPost msg ks kl).bufMap ks =
      (getPoster st.post msg (bufGet st.bufMap ks) (bufGet st.bufMap kl)).1 := by
  unfold State.callPost
  simp only
  rw [bufGet_bufStore_other _ _ _ _ (fun e => h e.symm)]
  exact bufGet_bufStore_same _ _ _ (getPoster_isSome _ _ _ _).1.symm

theorem bufGet_callPost_local (st : State) (msg ks kl : String) (h : ks ≠ kl) :
    bufGet (st.callPost msg ks kl).bufMap kl =
      (getPoster st.post msg (bufGet st.bufMap ks) (bufGet st.bufMap kl)).2 := by
  unfold State.callPost
  simp only
  apply bufGet_bufStore_same
  rw [bufGet_bufStore_other _ _ _ _ h]
  exact (getPoster_isSome _ _ _ _).2.symm

theorem bufGet_callPost_other (st : State) (msg ks kl k : String) (h1 : ks ≠ k)
    (h2 : kl ≠ k) : bufGet (st.callPost msg ks kl).bufMap k = bufGet st.bufMap k := by
  unfold State.callPost
  simp only
  rw [bufGet_bufStore_other _ _ _ _ h2, bufGet_bufStore_other _ _ _ _ h1]

/-! ## Invariants of runs -/

/-- The part of the state that is fixed by `Init`: the mode, the identity, the
four sinks, the dispatcher, the capacity and the names of the queues. -/
def State.config (st : State) :
    Bool × String × Option LogLogger × Option LogLogger × Option SyslogWriter ×
      Option SyslogWriter × Bool × Nat × List String :=
  (st.isDebug, st.logId, st.accesslog, st.errorlog, st.accessSyslog, st.errorSyslog,
    st.post, st.bufferSize, st.bufMap.map Prod.fst)

/-- The invariant of one queue of capacity `n`: it never holds more than `n`
messages, and what was accepted is what was received followed by what is
still buffered. -/
def ChanInv (n : Nat) (c : Chan) : Prop :=
  c.cap = n ∧ c.buf.length ≤ c.cap ∧ c.sent = c.recvd ++ c.buf

/-- Every queue of the map satisfies the invariant. -/
def AllInv (n : Nat) (m : List (String × Chan)) : Prop := ∀ e ∈ m, ChanInv n e.2

theorem chanInv_makeChan (n : Nat) : ChanInv n (makeChan n) := by
  simp [ChanInv, makeChan]

theorem chanInv_trySend {n : Nat} {c c' : Chan} {msg : String} (h : ChanInv n c)
    (hs : c.trySend msg = some c') : ChanInv n c' := by
  obtain ⟨h1, h2, h3⟩ := h
  unfold Chan.trySend at hs
  split at hs
  · rename_i hlt
    simp only [Option.some.injEq] at hs
    subst hs
    refine ⟨h1, ?_, ?_⟩
    · simp only [Chan.push, List.length_append, List.length_singleton]; omega
    · simp only [Chan.push, h3, List.append_assoc]
  · simp at hs

theorem chanInv_tryRecv {n : Nat} {c c' : Chan} {msg : String} (h : ChanInv n c)
    (hr : c.tryRecv = some (msg, c')) : ChanInv n c' := by
  obtain ⟨h1, h2, h3⟩ := h
  unfold Chan.tryRecv at hr
  split at hr
  · simp at hr
  · rename_i m rest hbuf
    simp only [Option.some.injEq, Prod.mk.injEq] at hr
    obtain ⟨rfl, rfl⟩ := hr
    refine ⟨h1, ?_, ?_⟩
    · simp only [hbuf, List.length_cons] at h2 ⊢; omega
    · simp only [h3, hbuf, List.append_assoc, List.singleton_append]

theorem chanInv_getPoster {n : Nat} (debug : Bool) (msg : String) (sys loc : Option Chan)
    (hs : ∀ c, sys = some c → ChanInv n c) (hl : ∀ c, loc = some c → ChanInv n c) :
    (∀ c, (getPoster debug msg sys loc).1 = some c → ChanInv n c) ∧
    (∀ c, (getPoster debug msg sys loc).2 = some c → ChanInv n c) := by
  have key : ∀ (ch : Option Chan), (∀ c, ch = some c → ChanInv n c) →
      ∀ c, selectSend ch msg = some c → ChanInv n c := by
    intro ch hch c hc
    cases ch with
    | none => simp [selectSend] at hc
    | some c0 => exact chanInv_trySend (hch c0 rfl) hc
  unfold getPoster
  cases debug
  · cases h1 : selectSend sys msg with
    | some a => exact ⟨fun c hc => key sys hs c (by simpa [h1] using hc), by simpa [h1] using hl⟩
    | none =>
      cases h2 : selectSend loc msg with
      | some b =>
        exact ⟨by simpa [h1, h2] using hs, fun c hc => key loc hl c (by simpa [h1, h2] using hc)⟩
      | none => exact ⟨by simpa [h1, h2] using hs, by simpa [h1, h2] using hl⟩
  · cases h2 : selectSend loc msg with
    | some b =>
      exact ⟨by simpa [h2] using hs, fun c hc => key loc hl c (by simpa [h2] using hc)⟩
    | none => exact ⟨by simpa [h2] using hs, by simpa [h2] using hl⟩

theorem allInv_bufGet {n : Nat} {m : List (String × Chan)} (h : AllInv n m) (k : String)
    (c : Chan) (hc : bufGet m k = some c) : ChanInv n c :=
  h (k, c) (bufGet_mem hc)

theorem allInv_callPost {n : Nat} (st : State) (msg ks kl : String)
    (h : AllInv n st.bufMap) : AllInv n (st.callPost msg ks kl).bufMap := by
  unfold State.callPost
  have hp := chanInv_getPoster (n := n) st.post msg (bufGet st.bufMap ks)
    (bufGet st.bufMap kl) (allInv_bufGet h ks) (allInv_bufGet h kl)
  exact forall_bufStore kl _ (forall_bufStore ks _ h hp.1) hp.2

theorem allInv_syslogCase {n : Nat} (st : State) (key : String) (w : Option SyslogWriter)
    (level : SyslogLevel) (panics : Bool) (h : AllInv n st.bufMap) :
    AllInv n (syslogCase st key w level panics).bufMap := by
  cases hg : bufGet st.bufMap key with
  | none => simpa [syslogCase, hg] using h
  | some c =>
    cases hr : c.tryRecv with
    | none => simpa [syslogCase, hg, hr] using h
    | some r =>
      obtain ⟨msg, c'⟩ := r
      have hc' : ChanInv n c' := chanInv_tryRecv (allInv_bufGet h key c hg) hr
      have hm : AllInv n (bufStore st.bufMap key (some c')) :=
        forall_bufStore key _ h (fun c hc => by cases hc; exact hc')
      cases w <;> cases panics <;> simpa [syslogCase, hg, hr] using hm

theorem allInv_localCase {n : Nat} (st : State) (key : String) (l : Option LogLogger)
    (panics : Bool) (h : AllInv n st.bufMap) :
    AllInv n (localCase st key l panics).bufMap := by
  cases hg : bufGet st.bufMap key with
  | none => simpa [localCase, hg] using h
  | some c =>
    cases hr : c.tryRecv with
    | none => simpa [localCase, hg, hr] using h
    | some r =>
      obtain ⟨msg, c'⟩ := r
      have hc' : ChanInv n c' := chanInv_tryRecv (allInv_bufGet h key c hg) hr
      have hm : AllInv n (bufStore st.bufMap key (some c')) :=
        forall_bufStore key _ h (fun c hc => by cases hc; exact hc')
      cases l <;> cases panics <;> simpa [localCase, hg, hr] using hm

theorem allInv_step {n : Nat} (st : State) (ev : Event) (h : AllInv n st.bufMap) :
    AllInv n (step st ev).bufMap := by
  cases ev with
  | log s body => exact allInv_callPost st _ _ _ h
  | syslogStep choice panics =>
    simp only [step, syslogConsumeProc]
    split
    · exact h
    · cases choice <;> exact allInv_syslogCase st _ _ _ _ h
  | localStep choice panics =>
    simp only [step, localConsumeProc]
    split
    · exact h
    · cases choice <;> exact allInv_localCase st _ _ _ h

theorem allInv_run {n : Nat} (evs : List Event) (st : State) (h : AllInv n st.bufMap) :
    AllInv n (run st evs).bufMap := by
  induction evs generalizing st with
  | nil => exact h
  | cons ev rest ih => exact ih (step st ev) (allInv_step st ev h)

theorem config_callPost (st : State) (msg ks kl : String) :
    (st.callPost msg ks kl).config = st.config := by
  simp [State.callPost, State.config, keys_bufStore]

theorem config_syslogCase (st : State) (key : String) (w : Option SyslogWriter)
    (level : SyslogLevel) (panics : Bool) :
    (syslogCase st key w level panics).config = st.config := by
  cases hg : bufGet st.bufMap key with
  | none => simp [syslogCase, hg]
  | some c =>
    cases hr : c.tryRecv with
    | none => simp [syslogCase, hg, hr]
    | some r =>
      have hk := keys_bufStore st.bufMap key (some r.2)
      cases w <;> cases panics <;> simp [syslogCase, hg, hr, State.config, hk]

theorem config_localCase (st : State) (key : String) (l : Option LogLogger)
    (panics : Bool) : (localCase st key l panics).config = st.config := by
  cases hg : bufGet st.bufMap key with
  | none => simp [localCase, hg]
  | some c =>
    cases hr : c.tryRecv with
    | none => simp [localCase, hg, hr]
    | some r =>
      have hk := keys_bufStore st.bufMap key (some r.2)
      cases l <;> cases panics <;> simp [localCase, hg, hr, State.config, hk]

theorem config_step (st : State) (ev : Event) : (step st ev).config = st.config := by
  cases ev with
  | log s body => exact config_callPost st _ _ _
  | syslogStep choice panics =>
    simp only [step, syslogConsumeProc]
    split
    · rfl
    · cases choice <;> exact config_syslogCase st _ _ _ _
  | localStep choice panics =>
    simp only [step, localConsumeProc]
    split
    · rfl
    · cases choice <;> exact config_localCase st _ _ _

theorem config_run (evs : List Event) (st : State) : (run st evs).config = st.config := by
  induction evs generalizing st with
  | nil => rfl
  | cons ev rest ih => exact (ih (step st ev)).trans (config_step st ev)

/-- The state that `Init(proj, true)` builds. -/
def debugState (proj : String) : State :=
  { isDebug := true, logId := proj,
    accesslog := some ⟨.stdout, "", _LOG_DEBUG_FLAG⟩,
    errorlog := some ⟨.stderr, "", _LOG_DEBUG_FLAG⟩,
    accessSyslog := none, errorSyslog := none,
    post := true, bufferSize := 10000,
    bufMap := [("FatalLocal", makeChan 10000), ("InfoLocal", makeChan 10000),
      ("DebugLocal", makeChan 10000), ("WarningLocal", makeChan 10000),
      ("ErrorLocal", makeChan 10000)],
    syslogRunning := false, localRunning := true, syslogCalls := [], localCalls := [] }

/-- The state that a successful `Init(proj, false)` builds. -/
def releaseState (proj : String) : State :=
  { isDebug := false, logId := proj,
    accesslog := some ⟨.file (proj ++ "_info"), "", _LOG_DEBUG_FLAG⟩,
    errorlog := some ⟨.file (proj ++ "_err"), "", _LOG_DEBUG_FLAG⟩,
    accessSyslog := some ⟨LOG_INFO ||| LOG_LOCAL3, proj ++ "_info"⟩,
    errorSyslog := some ⟨LOG_ERR ||| LOG_LOCAL3, proj ++ "_err"⟩,
    post := false, bufferSize := 10000,
    bufMap := [("InfoSys", makeChan 10000), ("DebugSys", makeChan 10000),
      ("WarningSys", makeChan 10000), ("ErrorSys", makeChan 10000),
      ("FatalSys", makeChan 10000), ("FatalLocal", makeChan 10000),
      ("InfoLocal", makeChan 10000), ("DebugLocal", makeChan 10000),
      ("WarningLocal", makeChan 10000), ("ErrorLocal", makeChan 10000)],
    syslogRunning := true, localRunning := true, syslogCalls := [], localCalls := [] }

theorem Init_debug (env : Env) (proj : String) : Init env proj true = .ok (debugState proj) := by
  simp [Init, initLocalLog, bufInsert, debugState]

theorem Init_release (env : Env) (proj : String) (st : State)
    (h : Init env proj false = .ok st) : st = releaseState proj := by
  unfold Init initSyslog initLocalLog at h
  cases h1 : env.syslogNew (LOG_INFO ||| LOG_LOCAL3) (proj ++ "_info") <;>
  cases h2 : env.syslogNew (LOG_ERR ||| LOG_LOCAL3) (proj ++ "_err") <;>
  cases h3 : env.openFile (proj ++ "_info") <;>
  cases h4 : env.openFile (proj ++ "_err") <;>
  simp [h1, h2, h3, h4, bufInsert] at h
  rw [← h]; rfl

theorem Init_ok (env : Env) (proj : String) (debug : Bool) (st : State)
    (h : Init env proj debug = .ok st) :
    st = if debug then debugState proj else releaseState proj := by
  cases debug with
  | true =>
    rw [Init_debug] at h
    simp only [Except.ok.injEq] at h
    simp [h]
  | false => simp [Init_release env proj st h]

theorem allInv_Init (env : Env) (proj : String) (debug : Bool) (st : State)
    (h : Init env proj debug = .ok st) : AllInv 10000 st.bufMap := by
  rw [Init_ok env proj debug st h]
  intro e he
  cases debug <;> simp [debugState, releaseState] at he <;>
    (rcases he with e1 | e1 | e1 | e1 | e1 | e1 | e1 | e1 | e1 | e1 | e1) <;>
    (first | (subst e1; exact chanInv_makeChan _) | exact chanInv_makeChan _)

theorem queueSet_of_allInv {n : Nat} (m : List (String × Chan)) (h : AllInv n m) :
    queueSet m = (m.map Prod.fst).map (fun k => (k, n)) := by
  simp only [queueSet, List.map_map]
  apply List.map_congr_left
  intro e he
  simp [(h e he).1]

theorem syslog_stopped_step (st : State) (ev : Event) (h : st.syslogRunning = false) :
    (step st ev).syslogRunning = false ∧ (step st ev).syslogCalls = st.syslogCalls := by
  cases ev with
  | log s body => exact ⟨h, rfl⟩
  | syslogStep choice panics => simp [step, syslogConsumeProc, h]
  | localStep choice panics =>
    simp only [step, localConsumeProc]
    split
    · exact ⟨h, rfl⟩
    · have key : ∀ key l, (localCase st key l panics).syslogRunning = false ∧
          (localCase st key l panics).syslogCalls = st.syslogCalls := by
        intro key l
        cases hg : bufGet st.bufMap key with
        | none => simp [localCase, hg, h]
        | some c =>
          cases hr : c.tryRecv with
          | none => simp [localCase, hg, hr, h]
          | some r => cases l <;> cases panics <;> simp [localCase, hg, hr, h]
      cases choice <;> exact key _ _

theorem syslog_stopped_run (evs : List Event) (st : State) (h : st.syslogRunning = false) :
    (run st evs).syslogRunning = false ∧ (run st evs).syslogCalls = st.syslogCalls := by
  induction evs generalizing st with
  | nil => exact ⟨h, rfl⟩
  | cons ev rest ih =>
    have hs := syslog_stopped_step st ev h
    have hr := ih (step st ev) hs.1
    exact ⟨hr.1, hr.2.trans hs.2⟩

theorem local_stopped_step (st : State) (ev : Event) (h : st.localRunning = false) :
    (step st ev).localRunning = false ∧ (step st ev).localCalls = st.localCalls := by
  cases ev with
  | log s body => exact ⟨h, rfl⟩
  | localStep choice panics => simp [step, localConsumeProc, h]
  | syslogStep choice panics =>
    simp only [step, syslogConsumeProc]
    split
    · exact ⟨h, rfl⟩
    · have key : ∀ key w level, (syslogCase st key w level panics).localRunning = false ∧
          (syslogCase st key w level panics).localCalls = st.localCalls := by
        intro key w level
        cases hg : bufGet st.bufMap key with
        | none => simp [syslogCase, hg, h]
        | some c =>
          cases hr : c.tryRecv with
          | none => simp [syslogCase, hg, hr, h]
          | some r => cases w <;> cases panics <;> simp [syslogCase, hg, hr, h]
      cases choice <;> exact key _ _ _

theorem local_stopped_run (evs : List Event) (st : State) (h : st.localRunning = false) :
    (run st evs).localRunning = false ∧ (run st evs).localCalls = st.localCalls := by
  induction evs generalizing st with
  | nil => exact ⟨h, rfl⟩
  | cons ev rest ih =>
    have hs := local_stopped_step st ev h
    have hr := ih (step st ev) hs.1
    exact ⟨hr.1, hr.2.trans hs.2⟩

theorem syslogCase_recv (st : State) (key : String) (w : SyslogWriter)
    (level : SyslogLevel) (panics : Bool) (c : Chan) (msg : String) (rest : List String)
    (hg : bufGet st.bufMap key = some c) (hb : c.buf = msg :: rest) :
    (syslogCase st key (some w) level panics).syslogCalls
        = st.syslogCalls ++ [⟨w, level, msg⟩] ∧
    bufGet (syslogCase st key (some w) level panics).bufMap key
        = some { c with buf := rest, recvd := c.recvd ++ [msg] } ∧
    (syslogCase st key (some w) level panics).syslogRunning
        = (st.syslogRunning && !panics) := by
  have hr : c.tryRecv = some (msg, { c with buf := rest, recvd := c.recvd ++ [msg] }) := by
    simp [Chan.tryRecv, hb]
  have hl := bufGet_bufStore_same st.bufMap key
    (some { c with buf := rest, recvd := c.recvd ++ [msg] }) (by simp [hg])
  cases panics <;> simp [syslogCase, hg, hr, hl]

theorem localCase_recv (st : State) (key : String) (l : LogLogger)
    (panics : Bool) (c : Chan) (msg : String) (rest : List String)
    (hg : bufGet st.bufMap key = some c) (hb : c.buf = msg :: rest) :
    (localCase st key (some l) panics).localCalls = st.localCalls ++ [⟨l, msg⟩] ∧
    bufGet (localCase st key (some l) panics).bufMap key
        = some { c with buf := rest, recvd := c.recvd ++ [msg] } ∧
    (localCase st key (some l) panics).localRunning = (st.localRunning && !panics) := by
  have hr : c.tryRecv = some (msg, { c with buf := rest, recvd := c.recvd ++ [msg] }) := by
    simp [Chan.tryRecv, hb]
  have hl := bufGet_bufStore_same st.bufMap key
    (some { c with buf := rest, recvd := c.recvd ++ [msg] }) (by simp [hg])
  cases panics <;> simp [localCase, hg, hr, hl]

theorem line_debug_flag (out : Dest) (t : Stamp) (msg : String) :
    (⟨out, "", _LOG_DEBUG_FLAG⟩ : LogLogger).line t msg =
      "" ++ (itoa t.year 4 ++ "/" ++ itoa t.month 2 ++ "/" ++ itoa t.day 2 ++ " ") ++
        (itoa t.hour 2 ++ ":" ++ itoa t.min 2 ++ ":" ++ itoa t.sec 2 ++
          ("." ++ itoa t.micro 6) ++ " ") ++
        (shortFile t.file ++ ":" ++ itoa t.line 0 ++ ": ") ++ msg ++ "\n" := by
  have h1 : _LOG_DEBUG_FLAG &&& Ldate ≠ 0 := by decide
  have h2 : _LOG_DEBUG_FLAG &&& (Ltime ||| Lmicroseconds) ≠ 0 := by decide
  have h3 : _LOG_DEBUG_FLAG &&& Lmicroseconds ≠ 0 := by decide
  have h4 : _LOG_DEBUG_FLAG &&& (Lshortfile ||| Llongfile) ≠ 0 := by decide
  have h5 : _LOG_DEBUG_FLAG &&& Lshortfile ≠ 0 := by decide
  simp only [LogLogger.line, formatHeader, if_pos h1, if_pos h2, if_pos h3, if_pos h4,
    if_pos h5]

theorem doPrint_buf (l : List Value) (buf : String) (n : Nat) (p : Bool) :
    doPrint buf n p l = buf ++ doPrint "" n p l := by
  induction l generalizing buf n p with
  | nil => simp [doPrint]
  | cons a rest ih =>
    simp only [doPrint]
    rw [ih, ih (_ ++ a.render)]
    split <;> simp [String.append_assoc]

theorem doPrint_succ (l : List Value) (buf : String) (n : Nat) (p : Bool) :
    doPrint buf (n + 1) p l = doPrint buf 1 p l := by
  cases l with
  | nil => rfl
  | cons a rest =>
    simp only [doPrint, Nat.zero_lt_succ, decide_True, Bool.true_and]
    rw [doPrint_succ rest _ (n + 1), doPrint_succ rest _ 1]

theorem Sprint_eq_spacedRendered (v : List Value) : Sprint v = spacedRendered v := by
  induction v with
  | nil => rfl
  | cons a rest ih =>
    cases rest with
    | nil => simp [Sprint, doPrint, spacedRendered]
    | cons b rest =>
      rw [spacedRendered, ← ih]
      simp only [Sprint, doPrint, Nat.lt_irrefl, decide_False, Bool.false_and, if_false,
        Nat.zero_lt_succ, decide_True, Bool.true_and, Bool.and_comm]
      rw [doPrint_succ rest _ 1, doPrint_buf rest, doPrint_buf rest (_ ++ b.render)]
      split <;> simp [String.append_assoc]

theorem spacedRendered_eq_concat (v : List Value) (h : noAdjacentNonStrings v = true) :
    spacedRendered v = concatRendered v := by
  induction v with
  | nil => rfl
  | cons a rest ih =>
    cases rest with
    | nil => simp [spacedRendered, concatRendered]
    | cons b rest =>
      simp only [noAdjacentNonStrings, Bool.and_eq_true, Bool.or_eq_true] at h
      rw [spacedRendered, ih h.2, concatRendered]
      have : (!a.isString && !b.isString) = false := by
        rcases h.1 with h1 | h1 <;> simp [h1]
      simp [this, concatRendered]

/-- Every operand, whatever its Go type, is represented: for each kind (string
or not) and each rendering there is a `Value` with that kind and rendering. -/
theorem Value_covers (isStr : Bool) (text : String) :
    ∃ a : Value, a.isString = isStr ∧ a.render = text := by
  cases isStr
  · exact ⟨.other text, rfl, rfl⟩
  · exact ⟨.str text, rfl, rfl⟩

/-- An error rendered `e` followed by the integer 1 is printed as `e 1`. -/
theorem Sprint_error_then_int : Sprint [.other "e", .int 1] = "e 1" := by decide

theorem Sprint_header (h b : String) : Sprint [.str h, .str b] = h ++ b := by
  simp [Sprint, doPrint, Value.isString, Value.render]

theorem bufGet_eq_none_iff (m : List (String × Chan)) (k : String) :
    bufGet m k = none ↔ k ∉ m.map Prod.fst := by
  induction m with
  | nil => simp [bufGet]
  | cons e rest ih =>
    obtain ⟨k0, c0⟩ := e
    rw [bufGet_cons]
    by_cases h : k0 = k
    · simp [h]
    · have h' : ¬ k = k0 := fun e => h e.symm
      simp [h, h', ih]

/-! ## The claims -/

/-- C1. In non-debug mode, for every message and every pair of queues, the
dispatcher leaves each queue unchanged or appends the message at its tail, it
never changes both, and it changes neither exactly when both are full.  The
dispatcher is a total function: it returns in every case. -/
theorem getPoster_nondebug_at_most_one (msg : String) (s l : Chan) :
    ((getPoster false msg (some s) (some l)).1 = some s ∨
      (getPoster false msg (some s) (some l)).1 = some (s.push msg)) ∧
    ((getPoster false msg (some s) (some l)).2 = some l ∨
      (getPoster false msg (some s) (some l)).2 = some (l.push msg)) ∧
    ((getPoster false msg (some s) (some l)).1 = some s ∨
      (getPoster false msg (some s) (some l)).2 = some l) ∧
    (((getPoster false msg (some s) (some l)).1 = some s ∧
      (getPoster false msg (some s) (some l)).2 = some l) ↔ (s.full ∧ l.full)) := by
  by_cases hs : s.hasRoom
  · have h1 : getPoster false msg (some s) (some l) = (some (s.push msg), some l) := by
      simp [getPoster, selectSend, trySend_of_room s msg hs]
    rw [h1]
    have := push_ne s msg
    simp [Chan.full, hs, this]
  · have hsf : s.trySend msg = none := trySend_of_full s msg hs
    by_cases hl : l.hasRoom
    · have h1 : getPoster false msg (some s) (some l) = (some s, some (l.push msg)) := by
        simp [getPoster, selectSend, hsf, trySend_of_room l msg hl]
      rw [h1]
      have := push_ne l msg
      simp [Chan.full, hl, this]
    · have h1 : getPoster false msg (some s) (some l) = (some s, some l) := by
        simp [getPoster, selectSend, hsf, trySend_of_full l msg hl]
      rw [h1]
      simp [Chan.full, hs, hl]

/-- C2. For every severity and every message: in non-debug mode, when the
syslog queue of the severity has room, the call leaves that queue with the
message appended at the tail of its buffer (the buffer is the old buffer
followed by the message, the capacity and what was received are as before) and
leaves the local queue as it was; in debug mode, or when the syslog queue is
full, and the local queue has room, the call leaves the local queue with the
message appended at the tail of its buffer. -/
theorem callPost_delivers_when_room (st : State) (s : Severity) (msg : String) :
    (st.post = false → ∀ c, bufGet st.bufMap (sysKey s) = some c → c.hasRoom →
      bufGet (st.callPost msg (sysKey s) (localKey s)).bufMap (sysKey s)
          = some { cap := c.cap, buf := c.buf ++ [msg], sent := c.sent ++ [msg],
                   recvd := c.recvd } ∧
      bufGet (st.callPost msg (sysKey s) (localKey s)).bufMap (localKey s)
          = bufGet st.bufMap (localKey s)) ∧
    ((st.post = true ∨ ∃ c, bufGet st.bufMap (sysKey s) = some c ∧ c.full) →
      ∀ l, bufGet st.bufMap (localKey s) = some l → l.hasRoom →
      bufGet (st.callPost msg (sysKey s) (localKey s)).bufMap (localKey s)
          = some { cap := l.cap, buf := l.buf ++ [msg], sent := l.sent ++ [msg],
                   recvd := l.recvd }) := by
  have hne := sysKey_ne_localKey s s
  constructor
  · intro hp c hc hroom
    rw [bufGet_callPost_sys _ _ _ _ hne, bufGet_callPost_local _ _ _ _ hne, hp, hc]
    simp [getPoster, selectSend, trySend_of_room c msg hroom, Chan.push]
  · intro hmode l hl hroom
    rw [bufGet_callPost_local _ _ _ _ hne, hl]
    rcases hmode with hp | ⟨c, hc, hfull⟩
    · rw [hp]
      simp [getPoster, selectSend, trySend_of_room l msg hroom, Chan.push]
    · rw [hc]
      cases st.post <;>
        simp [getPoster, selectSend, trySend_of_room l msg hroom,
          trySend_of_full c msg hfull, Chan.push]

/-- Witness for C2: after `Init("svc", false)`, `Info("x")` and `Info("y")`, the
call `post("m", InfoSys, InfoLocal)` leaves the syslog queue holding
`"[INFO]x"`, `"[INFO]y"`, `"m"` in this order and leaves the local queue
empty. -/
theorem callPost_delivers_when_room_witness :
    ∃ st, Init okEnv "svc" false = .ok st ∧
      bufGet ((run st [.log .Info "x", .log .Info "y"]).callPost "m" (sysKey .Info)
          (localKey .Info)).bufMap (sysKey .Info)
        = some { cap := 10000, buf := ["[INFO]x", "[INFO]y"] ++ ["m"],
                 sent := ["[INFO]x", "[INFO]y"] ++ ["m"], recvd := [] } ∧
      bufGet ((run st [.log .Info "x", .log .Info "y"]).callPost "m" (sysKey .Info)
          (localKey .Info)).bufMap (localKey .Info)
        = bufGet (run st [.log .Info "x", .log .Info "y"]).bufMap (localKey .Info) :=
  ⟨releaseState "svc", rfl,
    (callPost_delivers_when_room (run (releaseState "svc") [.log .Info "x", .log .Info "y"])
      .Info "m").1 (by decide)
      { cap := 10000, buf := ["[INFO]x", "[INFO]y"], sent := ["[INFO]x", "[INFO]y"],
        recvd := [] } (by decide) (by decide)⟩

/-- C9. After a successful `Init`, along every interleaving of logging calls
and consumer steps and for every queue, the messages received from the queue
are a leading segment, in the same order, of the messages accepted into it:
what was accepted is what was received followed by what is still buffered. -/
theorem queue_fifo (env : Env) (proj : String) (debug : Bool) (st : State)
    (h : Init env proj debug = .ok st) (evs : List Event) (k : String) (c : Chan)
    (hc : bufGet (run st evs).bufMap k = some c) :
    c.recvd <+: c.sent ∧ c.sent = c.recvd ++ c.buf := by
  have hinv := allInv_bufGet (allInv_run evs st (allInv_Init env proj debug st h)) k c hc
  exact ⟨⟨c.buf, hinv.2.2.symm⟩, hinv.2.2⟩

/-- Witness for C9: two `Info` calls and one step of the syslog consumer after
`Init("svc", false)`; the queue `InfoSys` has accepted both messages and the
consumer has received the first. -/
theorem queue_fifo_witness :
    ∃ st c, Init okEnv "svc" false = .ok st ∧
      bufGet (run st [.log .Info "a", .log .Info "b", .syslogStep .Info false]).bufMap
        "InfoSys" = some c ∧
      c.sent = ["[INFO]a", "[INFO]b"] ∧ c.recvd = ["[INFO]a"] ∧
      (c.recvd <+: c.sent ∧ c.sent = c.recvd ++ c.buf) :=
  ⟨_, ⟨10000, ["[INFO]b"], ["[INFO]a", "[INFO]b"], ["[INFO]a"]⟩, rfl, by decide, rfl, rfl,
    queue_fifo okEnv "svc" false _ rfl
      [.log .Info "a", .log .Info "b", .syslogStep .Info false] "InfoSys" _ (by decide)⟩

/-- C10. A successful `Init` creates one queue per severity and destination,
ten in non-debug mode and the five local ones in debug mode, each of capacity
10000; in every state reachable by logging calls and consumer steps the queues
and their capacities are the same and no queue holds more than 10000
messages. -/
theorem Init_queues_fixed (env : Env) (proj : String) (debug : Bool) (st : State)
    (h : Init env proj debug = .ok st) :
    queueSet st.bufMap =
      (if debug then [] else
        [(sysKey .Info, 10000), (sysKey .Debug, 10000), (sysKey .Warning, 10000),
          (sysKey .Error, 10000), (sysKey .Fatal, 10000)]) ++
        [(localKey .Fatal, 10000), (localKey .Info, 10000), (localKey .Debug, 10000),
          (localKey .Warning, 10000), (localKey .Error, 10000)] ∧
    (st.bufMap.map Prod.fst).Nodup ∧
    st.bufMap.length = (if debug then 5 else 10) ∧
    ∀ evs : List Event,
      queueSet (run st evs).bufMap = queueSet st.bufMap ∧
      ∀ k c, bufGet (run st evs).bufMap k = some c → c.cap = 10000 ∧ c.buf.length ≤ 10000 := by
  have hinv := allInv_Init env proj debug st h
  refine ⟨?_, ?_, ?_, ?_⟩
  · rw [Init_ok env proj debug st h]
    cases debug <;> rfl
  · rw [Init_ok env proj debug st h]
    cases debug
    · show (["InfoSys", "DebugSys", "WarningSys", "ErrorSys", "FatalSys", "FatalLocal",
        "InfoLocal", "DebugLocal", "WarningLocal", "ErrorLocal"] : List String).Nodup
      decide
    · show (["FatalLocal", "InfoLocal", "DebugLocal", "WarningLocal",
        "ErrorLocal"] : List String).Nodup
      decide
  · rw [Init_ok env proj debug st h]
    cases debug <;> rfl
  · intro evs
    have hrun := allInv_run evs st hinv
    constructor
    · rw [queueSet_of_allInv _ hrun, queueSet_of_allInv _ hinv]
      have hcfg := config_run evs st
      simp only [State.config, Prod.mk.injEq] at hcfg
      rw [hcfg.2.2.2.2.2.2.2.2]
    · intro k c hc
      have hci := allInv_bufGet hrun k c hc
      exact ⟨hci.1, by have := hci.2.1; rw [hci.1] at this; exact this⟩

/-- Witness for C10: `Init("svc", false)` followed by an `Info` call and a step
of the syslog consumer. -/
theorem Init_queues_fixed_witness :
    ∃ st, Init okEnv "svc" false = .ok st ∧ st.bufMap.length = 10 ∧
      queueSet (run st [.log .Info "a", .syslogStep .Info false]).bufMap
        = queueSet st.bufMap :=
  ⟨_, rfl, (Init_queues_fixed okEnv "svc" false _ rfl).2.2.1,
    ((Init_queues_fixed okEnv "svc" false _ rfl).2.2.2
      [.log .Info "a", .syslogStep .Info false]).1⟩

/-- C3 (the code at the failing input). A panic in the forwarding call of a
consumer loop ends the loop: the deferred `recover()` sits outside the `for`, so
after it runs the function returns.  After `Init("svc", false)`, `Info("a")`,
`Info("b")` and a step of the syslog consumer whose call panics, `"[INFO]b"` is
still queued and no later step, in any continuation, forwards it; the same
holds for the local consumer after `Init("svc", true)`, `Error("a")`,
`Error("b")`. -/
theorem consumer_loop_ends_on_panic :
    (∃ st, Init okEnv "svc" false = .ok st ∧
      bufGet (run st [.log .Info "a", .log .Info "b", .syslogStep .Info true]).bufMap
          "InfoSys"
        = some ⟨10000, ["[INFO]b"], ["[INFO]a", "[INFO]b"], ["[INFO]a"]⟩ ∧
      ∀ evs : List Event,
        (run (run st [.log .Info "a", .log .Info "b", .syslogStep .Info true]) evs).syslogCalls
          = [⟨⟨LOG_INFO ||| LOG_LOCAL3, "svc_info"⟩, .info, "[INFO]a"⟩]) ∧
    (∃ st, Init okEnv "svc" true = .ok st ∧
      bufGet (run st [.log .Error "a", .log .Error "b", .localStep .Error true]).bufMap
          "ErrorLocal"
        = some ⟨10000, ["[ERROR]b"], ["[ERROR]a", "[ERROR]b"], ["[ERROR]a"]⟩ ∧
      ∀ evs : List Event,
        (run (run st [.log .Error "a", .log .Error "b", .localStep .Error true]) evs).localCalls
          = [⟨⟨.stderr, "", _LOG_DEBUG_FLAG⟩, "[ERROR]a"⟩]) := by
  refine ⟨⟨releaseState "svc", rfl, by decide, fun evs => ?_⟩,
    ⟨debugState "svc", rfl, by decide, fun evs => ?_⟩⟩
  · rw [(syslog_stopped_run evs _ (by decide)).2]
    decide
  · rw [(local_stopped_run evs _ (by decide)).2]
    decide

/-- C4 (counterexample). In debug mode a message taken from the Warning local
queue is written through the logger on stderr, not on stdout. -/
theorem warning_local_goes_to_error_destination :
    ∃ st, Init okEnv "svc" true = .ok st ∧
      (run st [.log .Warning "w", .localStep .Warning false]).localCalls
        = [⟨⟨.stderr, "", _LOG_DEBUG_FLAG⟩, "[WARNING]w"⟩] ∧
      (⟨.stderr, "", _LOG_DEBUG_FLAG⟩ : LogLogger).out ≠ .stdout :=
  ⟨debugState "svc", rfl, by decide, by decide⟩

/-- C4 (amended). In every state reachable after a successful `Init`, a step of
the running local consumer that takes the oldest message of the local queue of
a severity writes it through the logger fixed by the severity: Debug and Info
go to the info destination (the file `proj_info`, or stdout in debug mode) and
Warning, Error and Fatal go to the error destination (the file `proj_err`, or
stderr in debug mode). -/
theorem localConsumeProc_destinations (env : Env) (proj : String) (debug : Bool)
    (st0 : State) (h : Init env proj debug = .ok st0) (evs : List Event) (s : Severity)
    (panics : Bool) (c : Chan) (msg : String) (rest : List String)
    (hrun : (run st0 evs).localRunning = true)
    (hg : bufGet (run st0 evs).bufMap (localKey s) = some c) (hb : c.buf = msg :: rest) :
    (localConsumeProc (run st0 evs) s panics).localCalls =
      (run st0 evs).localCalls ++
        [⟨⟨match s with
            | .Debug => if debug then .stdout else .file (proj ++ "_info")
            | .Info => if debug then .stdout else .file (proj ++ "_info")
            | .Warning => if debug then .stderr else .file (proj ++ "_err")
            | .Error => if debug then .stderr else .file (proj ++ "_err")
            | .Fatal => if debug then .stderr else .file (proj ++ "_err"),
          "", _LOG_DEBUG_FLAG⟩, msg⟩] ∧
    bufGet (localConsumeProc (run st0 evs) s panics).bufMap (localKey s)
      = some { c with buf := rest, recvd := c.recvd ++ [msg] } := by
  have hcfg := config_run evs st0
  have hst := Init_ok env proj debug st0 h
  simp only [State.config, Prod.mk.injEq] at hcfg
  obtain ⟨-, -, ha, he, -⟩ := hcfg
  have ha' : (run st0 evs).accesslog
      = some ⟨if debug then .stdout else .file (proj ++ "_info"), "", _LOG_DEBUG_FLAG⟩ := by
    rw [ha, hst]; cases debug <;> rfl
  have he' : (run st0 evs).errorlog
      = some ⟨if debug then .stderr else .file (proj ++ "_err"), "", _LOG_DEBUG_FLAG⟩ := by
    rw [he, hst]; cases debug <;> rfl
  cases s <;> simp only [localConsumeProc, hrun, Bool.not_true, Bool.false_eq_true, if_false,
    ha', he'] <;>
    exact ⟨(localCase_recv _ _ _ panics c msg rest hg hb).1,
      (localCase_recv _ _ _ panics c msg rest hg hb).2.1⟩

/-- Witness for C4 (amended): the Warning message of the counterexample. -/
theorem localConsumeProc_destinations_witness :
    ∃ st, Init okEnv "svc" true = .ok st ∧
      (localConsumeProc (run st [.log .Warning "w"]) .Warning false).localCalls
        = (run st [.log .Warning "w"]).localCalls ++
            [⟨⟨.stderr, "", _LOG_DEBUG_FLAG⟩, "[WARNING]w"⟩] :=
  ⟨debugState "svc", rfl,
    (localConsumeProc_destinations okEnv "svc" true (debugState "svc") rfl
      [.log .Warning "w"] .Warning false ((makeChan 10000).push "[WARNING]w") "[WARNING]w" []
      (by decide) (by decide) rfl).1⟩

/-- C5 (counterexample). `Info(1, 2)` posts `"[INFO]1 2"`: `fmt.Sprint` puts a
space between two operands when neither is a string, so the message is not the
header followed by the renderings with no separators. -/
theorem Info_two_ints_has_space :
    ∃ st, Init okEnv "svc" true = .ok st ∧
      bufGet (Info st [.int 1, .int 2]).bufMap "InfoLocal"
        = some ((makeChan 10000).push "[INFO]1 2") ∧
      "[INFO]1 2" ≠ _INFO_HEADER ++ concatRendered [.int 1, .int 2] :=
  ⟨debugState "svc", rfl, by decide, by decide⟩

/-- C5 (amended). For every severity and every list of arguments (each argument
given by its kind, string or not, and its rendering, so of any Go type), the
non-format logging call posts one message equal to the header of the severity
immediately followed by `fmt.Sprint` of the arguments, that is, the renderings
of the arguments in order with one space between two neighbouring arguments
when neither is a string; when no two neighbouring arguments are both
non-strings this is the renderings concatenated with no separators. -/
theorem logFn_posts_header_Sprint (s : Severity) (st : State) (v : List Value) :
    logFn s st v = st.callPost (header s ++ Sprint v) (sysKey s) (localKey s) ∧
    header s = (match s with
      | .Debug => "[DEBUG]"
      | .Info => "[INFO]"
      | .Warning => "[WARNING]"
      | .Error => "[ERROR]"
      | .Fatal => "[FATAL]") ∧
    Sprint v = spacedRendered v ∧
    (noAdjacentNonStrings v = true → Sprint v = concatRendered v) := by
  refine ⟨?_, ?_, Sprint_eq_spacedRendered v, fun h => ?_⟩
  · cases s <;> simp only [logFn, Info, Debug, Warning, Error, Fatal, Sprint_header] <;> rfl
  · cases s <;> rfl
  · rw [Sprint_eq_spacedRendered, spacedRendered_eq_concat v h]

/-- Witness for C5 (amended): `Info("hello", 42)` posts `"[INFO]hello42"`. -/
theorem logFn_posts_header_Sprint_witness :
    ∃ st, Init okEnv "svc" false = .ok st ∧
      noAdjacentNonStrings [.str "hello", .int 42] = true ∧
      Sprint [.str "hello", .int 42] = concatRendered [.str "hello", .int 42] ∧
      concatRendered [.str "hello", .int 42] = "hello42" ∧
      logFn .Info st [.str "hello", .int 42]
        = st.callPost (header .Info ++ Sprint [.str "hello", .int 42])
            (sysKey .Info) (localKey .Info) :=
  ⟨releaseState "svc", rfl, rfl,
    (logFn_posts_header_Sprint .Info (releaseState "svc") [.str "hello", .int 42]).2.2.2 rfl,
    by decide,
    (logFn_posts_header_Sprint .Info (releaseState "svc") [.str "hello", .int 42]).1⟩

/-- C6. The dispatcher of debug mode never touches the syslog queue, whatever
its state, and attempts only the local queue.  After `Init("svc", true)`, with
any outcome of the system calls, there is no syslog writer and no syslog queue;
`Error("boom")` puts `"[ERROR]boom"` on the local queue `ErrorLocal`, the local
consumer writes it through the logger on stderr, whose line starts with the
date, the time with microseconds and the source position; and no run ever
makes a syslog call or creates a syslog queue. -/
theorem debug_mode_local_only :
    (∀ (msg : String) (sys loc : Option Chan),
      (getPoster true msg sys loc).1 = sys ∧
      (getPoster true msg sys loc).2 =
        (match selectSend loc msg with
          | some l => some l
          | none => loc)) ∧
    (∀ env : Env, ∃ st, Init env "svc" true = .ok st ∧
      st.accessSyslog = none ∧ st.errorSyslog = none ∧
      bufGet (Error st [.str "boom"]).bufMap "ErrorLocal"
        = some ((makeChan 10000).push "[ERROR]boom") ∧
      (localConsumeProc (Error st [.str "boom"]) .Error false).localCalls
        = [⟨⟨.stderr, "", _LOG_DEBUG_FLAG⟩, "[ERROR]boom"⟩] ∧
      (∀ t : Stamp, (⟨.stderr, "", _LOG_DEBUG_FLAG⟩ : LogLogger).line t "[ERROR]boom" =
        "" ++ (itoa t.year 4 ++ "/" ++ itoa t.month 2 ++ "/" ++ itoa t.day 2 ++ " ") ++
          (itoa t.hour 2 ++ ":" ++ itoa t.min 2 ++ ":" ++ itoa t.sec 2 ++
            ("." ++ itoa t.micro 6) ++ " ") ++
          (shortFile t.file ++ ":" ++ itoa t.line 0 ++ ": ") ++ "[ERROR]boom" ++ "\n") ∧
      ∀ evs : List Event,
        (run st evs).syslogCalls = [] ∧
        ∀ s : Severity, bufGet (run st evs).bufMap (sysKey s) = none) := by
  constructor
  · intro msg sys loc
    unfold getPoster
    cases h : selectSend loc msg <;> simp [h]
  · intro env
    refine ⟨debugState "svc", Init_debug env "svc", rfl, rfl, by decide, by decide,
      fun t => line_debug_flag _ t _, fun evs => ⟨?_, fun s => ?_⟩⟩
    · exact (syslog_stopped_run evs _ rfl).2
    · rw [bufGet_eq_none_iff]
      have hcfg := config_run evs (debugState "svc")
      simp only [State.config, Prod.mk.injEq] at hcfg
      rw [hcfg.2.2.2.2.2.2.2.2]
      cases s <;> decide

/-- C7 (counterexample). After `Init("svc", false)` the logger on the file
`svc_info` carries the flags `Ldate | Lmicroseconds | Lshortfile`, and the line
it writes for `"[INFO]hi"` starts with a date, a time and a source position. -/
theorem release_loggers_add_stamp :
    ∃ st, Init okEnv "svc" false = .ok st ∧
      st.accesslog = some ⟨.file "svc_info", "", Ldate ||| Lmicroseconds ||| Lshortfile⟩ ∧
      (⟨.file "svc_info", "", Ldate ||| Lmicroseconds ||| Lshortfile⟩ : LogLogger).line
          ⟨2024, 1, 2, 3, 4, 5, 6, "/go/src/logger/logger.go", 140⟩ "[INFO]hi"
        = "2024/01/02 03:04:05.000006 logger.go:140: [INFO]hi\n" ∧
      "2024/01/02 03:04:05.000006 logger.go:140: [INFO]hi\n" ≠ "[INFO]hi" ++ "\n" :=
  ⟨releaseState "svc", rfl, by decide, by decide, by decide⟩

/-- C7 (amended). In non-debug mode the loggers that `initLocalLog` opens on the
files `proj_info` and `proj_err` carry the same flags as the loggers of debug
mode, `Ldate | Lmicroseconds | Lshortfile`: every line they write is the date,
the time with microseconds and the source position followed by the message. -/
theorem release_loggers_flags (env : Env) (proj : String) (st : State)
    (h : Init env proj false = .ok st) :
    st.accesslog = some ⟨.file (proj ++ "_info"), "", _LOG_DEBUG_FLAG⟩ ∧
    st.errorlog = some ⟨.file (proj ++ "_err"), "", _LOG_DEBUG_FLAG⟩ ∧
    _LOG_DEBUG_FLAG = Ldate ||| Lmicroseconds ||| Lshortfile ∧
    ∀ (l : LogLogger), (some l = st.accesslog ∨ some l = st.errorlog) →
      ∀ (t : Stamp) (msg : String), l.line t msg =
        "" ++ (itoa t.year 4 ++ "/" ++ itoa t.month 2 ++ "/" ++ itoa t.day 2 ++ " ") ++
          (itoa t.hour 2 ++ ":" ++ itoa t.min 2 ++ ":" ++ itoa t.sec 2 ++
            ("." ++ itoa t.micro 6) ++ " ") ++
          (shortFile t.file ++ ":" ++ itoa t.line 0 ++ ": ") ++ msg ++ "\n" := by
  rw [Init_release env proj st h]
  refine ⟨rfl, rfl, rfl, fun l hl t msg => ?_⟩
  rcases hl with hl | hl <;>
    (simp only [releaseState, Option.some.injEq] at hl; subst hl; exact line_debug_flag _ t msg)

/-- Witness for C7 (amended): the loggers of `Init("svc", false)`. -/
theorem release_loggers_flags_witness :
    ∃ st, Init okEnv "svc" false = .ok st ∧
      st.accesslog = some ⟨.file ("svc" ++ "_info"), "", _LOG_DEBUG_FLAG⟩ ∧
      st.errorlog = some ⟨.file ("svc" ++ "_err"), "", _LOG_DEBUG_FLAG⟩ :=
  ⟨releaseState "svc", rfl,
    (release_loggers_flags okEnv "svc" (releaseState "svc") rfl).1,
    (release_loggers_flags okEnv "svc" (releaseState "svc") rfl).2.1⟩

/-- C8. In every state reachable after a successful `Init` in non-debug mode, a
step of the running syslog consumer that takes the oldest message of the syslog
queue of a severity forwards it by the level method of that severity: Debug by
`Debug` and Info by `Info` on the writer tagged `proj_info`, Warning by
`Warning`, Error by `Err` and Fatal by `Crit` on the writer tagged `proj_err`. -/
theorem syslogConsumeProc_levels (env : Env) (proj : String) (st0 : State)
    (h : Init env proj false = .ok st0) (evs : List Event) (s : Severity)
    (panics : Bool) (c : Chan) (msg : String) (rest : List String)
    (hrun : (run st0 evs).syslogRunning = true)
    (hg : bufGet (run st0 evs).bufMap (sysKey s) = some c) (hb : c.buf = msg :: rest) :
    (syslogConsumeProc (run st0 evs) s panics).syslogCalls =
      (run st0 evs).syslogCalls ++
        [match s with
          | .Debug => ⟨⟨LOG_INFO ||| LOG_LOCAL3, proj ++ "_info"⟩, .debug, msg⟩
          | .Info => ⟨⟨LOG_INFO ||| LOG_LOCAL3, proj ++ "_info"⟩, .info, msg⟩
          | .Warning => ⟨⟨LOG_ERR ||| LOG_LOCAL3, proj ++ "_err"⟩, .warning, msg⟩
          | .Error => ⟨⟨LOG_ERR ||| LOG_LOCAL3, proj ++ "_err"⟩, .err, msg⟩
          | .Fatal => ⟨⟨LOG_ERR ||| LOG_LOCAL3, proj ++ "_err"⟩, .crit, msg⟩] ∧
    bufGet (syslogConsumeProc (run st0 evs) s panics).bufMap (sysKey s)
      = some { c with buf := rest, recvd := c.recvd ++ [msg] } := by
  have hcfg := config_run evs st0
  have hst := Init_release env proj st0 h
  simp only [State.config, Prod.mk.injEq] at hcfg
  obtain ⟨-, -, -, -, ha, he, -⟩ := hcfg
  have ha' : (run st0 evs).accessSyslog = some ⟨LOG_INFO ||| LOG_LOCAL3, proj ++ "_info"⟩ := by
    rw [ha, hst]; rfl
  have he' : (run st0 evs).errorSyslog = some ⟨LOG_ERR ||| LOG_LOCAL3, proj ++ "_err"⟩ := by
    rw [he, hst]; rfl
  cases s <;> simp only [syslogConsumeProc, hrun, Bool.not_true, Bool.false_eq_true, if_false,
    ha', he'] <;>
    exact ⟨(syslogCase_recv _ _ _ _ panics c msg rest hg hb).1,
      (syslogCase_recv _ _ _ _ panics c msg rest hg hb).2.1⟩

/-- Witness for C8: after `Init("svc", false)` and `Fatal("x")`, the syslog
consumer forwards `"[FATAL]x"` by `Crit` on the writer tagged `svc_err`. -/
theorem syslogConsumeProc_levels_witness :
    ∃ st, Init okEnv "svc" false = .ok st ∧
      (syslogConsumeProc (run st [.log .Fatal "x"]) .Fatal false).syslogCalls
        = (run st [.log .Fatal "x"]).syslogCalls ++
            [⟨⟨LOG_ERR ||| LOG_LOCAL3, "svc" ++ "_err"⟩, .crit, "[FATAL]x"⟩] :=
  ⟨releaseState "svc", rfl,
    (syslogConsumeProc_levels okEnv "svc" (releaseState "svc") rfl
      [.log .Fatal "x"] .Fatal false ((makeChan 10000).push "[FATAL]x") "[FATAL]x" []
      (by decide) (by decide) rfl).1⟩

end Logger
